import Mathlib

/-!
Shallow embedding of `everylot/everylot.py` (class `EveryLot`) and proofs
about its behavior.

Conventions of the embedding:
* Python numbers (ints and floats used by the program) are modelled as `ℚ`
  where all arithmetic is exact comparisons and linear arithmetic, and as
  `ℝ` for the transcendental map-zoom computation (`math.sin`, `math.log`).
* A Python exception is an `Except PyError` result; code that cannot raise
  returns plainly.
* A SQLite row value is a `Val` (NULL, numeric, or text); the row mapping
  `self.lot` is an association list `Lot`.
-/

instance {ε α : Type} [DecidableEq ε] [DecidableEq α] : DecidableEq (Except ε α) :=
  fun a b =>
    match a, b with
    | .ok x, .ok y =>
        if h : x = y then .isTrue (by rw [h]) else .isFalse (by simp [h])
    | .error x, .error y =>
        if h : x = y then .isTrue (by rw [h]) else .isFalse (by simp [h])
    | .ok _, .error _ => .isFalse (by simp)
    | .error _, .ok _ => .isFalse (by simp)

namespace EveryLot

/-- Python exceptions relevant to `everylot.py`: the ones its code can raise
or catch. `notFoundError` stands for the dedicated not-found error the spec
describes; it is included so claims about it can be stated, the code itself
never constructs it. -/
inductive PyError where
  | typeError
  | valueError
  | keyError
  | notFoundError
deriving DecidableEq, Repr

/-- A SQLite column value as it arrives in the row dict `self.lot`. -/
inductive Val where
  | null
  | num (q : ℚ)
  | text (s : String)
deriving DecidableEq, Repr

/-- The row mapping `self.lot` (column name to value). -/
abbrev Lot := List (String × Val)

/-- The value of a Python float as `aim_camera` observes it: a finite value
kept as an exact rational (decimal-to-double rounding is not modelled; the
comparisons of the cascade are against small integers), or an infinity, or
a NaN. -/
inductive PyFloatVal where
  | finite (q : ℚ)
  | inf (neg : Bool)
  | nan
deriving DecidableEq, Repr

/-- Character-level result of parsing a Python float literal: sign, integer
part, fraction digits with their count, and exponent — or an infinity or
NaN keyword. All components are discrete so parsing is fully decidable. -/
inductive PyFloatRep where
  | finite (neg : Bool) (intval fracval fracdigits : ℕ) (exp : ℤ)
  | inf (neg : Bool)
  | nan
deriving DecidableEq, Repr

/-- The characters CPython's `float(str)` strips from both ends of an ASCII
string: space and the \t..\r range. -/
def isPySpace (c : Char) : Bool :=
  c == ' ' || (9 ≤ c.toNat && c.toNat ≤ 13)

/-- A run of decimal digits with optional single underscores between digits
(PEP 515): nonempty, no leading, trailing or doubled underscore. Returns
the value and the number of digits. -/
def digitGroup (cs : List Char) : Option (ℕ × ℕ) :=
  if cs.isEmpty then none
  else if cs.head? == some '_' || cs.getLast? == some '_' then none
  else if !(cs.all fun c => c.isDigit || c == '_') then none
  else if (cs.zip cs.tail).any (fun p => p.1 == '_' && p.2 == '_') then none
  else
    let ds := cs.filter Char.isDigit
    some (ds.foldl (fun a c => a * 10 + (c.toNat - 48)) 0, ds.length)

/-- The mantissa of a float literal: digits, a dot with digits on at least
one side, or both. Returns integer part, fraction value and fraction digit
count. -/
def mantissaParts (cs : List Char) : Option (ℕ × ℕ × ℕ) :=
  let ip := cs.takeWhile (fun c => c != '.')
  match cs.dropWhile (fun c => c != '.') with
  | [] => (digitGroup ip).map fun p => (p.1, 0, 0)
  | '.' :: fp =>
      if ip.isEmpty && fp.isEmpty then none
      else if ip.isEmpty then (digitGroup fp).map fun q => (0, q.1, q.2)
      else if fp.isEmpty then (digitGroup ip).map fun p => (p.1, 0, 0)
      else
        match digitGroup ip, digitGroup fp with
        | some p, some q => some (p.1, q.1, q.2)
        | _, _ => none
  | _ => none

/-- A float literal body: mantissa with an optional `e`/`E` exponent that
has an optional sign and its own digit run. -/
def numberParts (cs : List Char) : Option (ℕ × ℕ × ℕ × ℤ) :=
  let mant := cs.takeWhile (fun c => c != 'e' && c != 'E')
  match cs.dropWhile (fun c => c != 'e' && c != 'E') with
  | [] => (mantissaParts mant).map fun m => (m.1, m.2.1, m.2.2, 0)
  | _ :: ex =>
      let (eneg, ebody) : Bool × List Char :=
        match ex with
        | '-' :: r => (true, r)
        | '+' :: r => (false, r)
        | _ => (false, ex)
      match mantissaParts mant, digitGroup ebody with
      | some m, some p =>
          some (m.1, m.2.1, m.2.2, if eneg then -(p.1 : ℤ) else (p.1 : ℤ))
      | _, _ => none

/-- Model of CPython `float(s)` on an ASCII string, character level: strip
whitespace from both ends, take an optional sign, then either a (case
insensitive) `inf`/`infinity`/`nan` keyword or a numeric literal. Returns
`none` exactly where Python raises `ValueError` (for ASCII input; unicode
digits and non-ASCII whitespace are outside the model). -/
def parsePyFloatRep (s : String) : Option PyFloatRep :=
  let cs := ((s.toList.dropWhile isPySpace).reverse.dropWhile isPySpace).reverse
  let (neg, body) : Bool × List Char :=
    match cs with
    | '-' :: rest => (true, rest)
    | '+' :: rest => (false, rest)
    | _ => (false, cs)
  let lower := body.map Char.toLower
  if lower = ['i', 'n', 'f'] || lower = ['i', 'n', 'f', 'i', 'n', 'i', 't', 'y'] then
    some (.inf neg)
  else if lower = ['n', 'a', 'n'] then
    some .nan
  else
    (numberParts body).map fun n => .finite neg n.1 n.2.1 n.2.2.1 n.2.2.2

/-- The numeric value of a parsed float literal, as an exact rational. -/
def repVal : PyFloatRep → PyFloatVal
  | .finite neg i f d e =>
      .finite ((if neg then -1 else 1) * ((i : ℚ) + (f : ℚ) / 10 ^ d) * 10 ^ e)
  | .inf neg => .inf neg
  | .nan => .nan

/-- Model of Python `float(s)` on a string. -/
def parsePyFloat (s : String) : Option PyFloatVal :=
  (parsePyFloatRep s).map repVal

/-- Model of Python `float(v)` on a row value: `float(None)` raises
`TypeError`, a numeric value converts exactly, a text value parses or
raises `ValueError`. -/
def pyFloat : Val → Except PyError PyFloatVal
  | .null => .error .typeError
  | .num q => .ok (.finite q)
  | .text s =>
      match parsePyFloat s with
      | none => .error .valueError
      | some v => .ok v

/-- Python `floors == n` for an integer n: an infinity or NaN equals no
rational. -/
def pfEq (v : PyFloatVal) (n : ℚ) : Bool :=
  match v with
  | .finite q => q = n
  | _ => false

/-- Python `floors >= n` for an integer n: positive infinity exceeds every
rational, negative infinity none, and every comparison with NaN is false. -/
def pfGe (v : PyFloatVal) (n : ℚ) : Bool :=
  match v with
  | .finite q => n ≤ q
  | .inf neg => !neg
  | .nan => false

/-- Rendering of a row value by `str.format`, as used in
`'\x7b\x7d,\x7b\x7d'.format(self.lot['lat'], self.lot['lon'])`. The exact
digits of the rendering never matter to the claims; both sides of every
comparison render through this one function. -/
def render : Val → String
  | .null => "None"
  | .num q => toString q
  | .text s => s

/-- The floor-count defaulting of `aim_camera`:
`floors = float(self.lot.get('floors', 0)) or 2` inside
`try ... except TypeError: floors = 2`. An absent column gives `float(0)`,
which is falsy, hence 2; `None` raises `TypeError`, caught, hence 2; a
numeric zero is falsy, hence 2 (infinities and NaN are truthy and kept);
an unparseable string raises `ValueError`, which the `except TypeError`
clause does NOT catch, so it propagates. -/
def floorsValue : Option Val → Except PyError PyFloatVal
  | none => .ok (.finite 2)
  | some v =>
      match pyFloat v with
      | .error .typeError => .ok (.finite 2)
      | .error e => .error e
      | .ok (.finite q) => .ok (.finite (if q = 0 then 2 else q))
      | .ok w => .ok w

/-- The cascade of `if` statements in `aim_camera`, applied to the parsed
floor count. Each `if` overwrites the running `(fov, pitch)` pair exactly
as the Python does; `floors == 3` and `floors == 6` overwrite `fov` alone. -/
def aim_camera_floors (floors : PyFloatVal) : ℚ × ℚ :=
  let fp : ℚ × ℚ := (65, 10)
  let fp := if pfEq floors 3 then (72, fp.2) else fp
  let fp := if pfEq floors 4 then (76, 15) else fp
  let fp := if pfGe floors 5 then (81, 20) else fp
  let fp := if pfEq floors 6 then (86, fp.2) else fp
  let fp := if pfGe floors 8 then (90, 25) else fp
  let fp := if pfGe floors 10 then (90, 30) else fp
  fp

/-- `EveryLot.aim_camera`: parse the `floors` column (absent = `none`),
then run the fov/pitch cascade. -/
def aim_camera (floors : Option Val) : Except PyError (ℚ × ℚ) :=
  (floorsValue floors).map aim_camera_floors

/-- One row of the `lots` table, with the two columns the SELECT and its
WHERE clause touch made explicit. `tweeted` is 0 for an unpublished row. -/
structure LotRow where
  id : Int
  tweeted : Int
  cols : Lot
deriving DecidableEq, Repr

/-- The WHERE clause of `QUERY` as `__init__` instantiates it. Python
`if id_:` is a truthiness test, so an absent id or an id of 0 selects by
`tweeted = 0` instead of by `id`. -/
def rowMatches (id_ : Option Int) (r : LotRow) : Bool :=
  match id_ with
  | some i => if i ≠ 0 then r.id = i else r.tweeted = 0
  | none => r.tweeted = 0

/-- `ORDER BY id ASC LIMIT 1`: among the matching rows, the one with the
least id (the table's ids are unique). -/
def firstMatch (rows : List LotRow) (id_ : Option Int) : Option LotRow :=
  (rows.filter (rowMatches id_)).foldl
    (fun acc r =>
      match acc with
      | none => some r
      | some a => if r.id < a.id then some r else some a)
    none

/-- Loading `self.lot` in `EveryLot.__init__`:
`self.lot = dict(zip(keys, curs.fetchone()))`. When no row matches,
`curs.fetchone()` returns `None` and `zip(keys, None)` raises `TypeError`
(`None` is not iterable); no dedicated not-found error exists in the code. -/
def loadLot (rows : List LotRow) (id_ : Option Int) : Except PyError LotRow :=
  match firstMatch rows id_ with
  | none => .error .typeError
  | some r => .ok r

/-- A linear ring: a list of (lng, lat) coordinate pairs, the order in which
shapely's `mapping` presents coordinates. -/
abbrev Ring := List (ℚ × ℚ)

/-- A polygon as `shapely.geometry.mapping` presents it: the exterior ring
followed by the interior rings (holes). For a `Polygon`,
`parcel["coordinates"]` is exactly `outer :: holes`. -/
structure Polygon where
  outer : Ring
  holes : List Ring
deriving DecidableEq, Repr

/-- A geometry as decoded from the stored well-known binary. -/
inductive Geometry where
  | poly (p : Polygon)
  | multi (ps : List Polygon)
  | other (typeName : String)
deriving DecidableEq, Repr

/-- The ring selection of `get_maps_image`: for a `Polygon` it takes
`parcel["coordinates"]` whole — the exterior ring AND every hole ring; for
a `MultiPolygon` it takes `polygon[0]` of each sub-polygon — the outer ring
only; any other type raises `ValueError`. -/
def overlayRings : Geometry → Except PyError (List Ring)
  | .poly p => .ok (p.outer :: p.holes)
  | .multi ps => .ok (ps.map Polygon.outer)
  | .other _ => .error .valueError

/-- One `StaticMapPath`: the comprehension `for lng, lat in polygon` swaps
each coordinate pair into (lat, lng) order. -/
def toPath (r : Ring) : List (ℚ × ℚ) :=
  r.map (fun c => (c.2, c.1))

/-- The overlay path list `paths` passed to `client.static_map`. -/
def overlayPaths (g : Geometry) : Except PyError (List (List (ℚ × ℚ))) :=
  (overlayRings g).map (List.map toPath)

/-- An axis-aligned bounding box in the (minx, miny, maxx, maxy) order of
`shape.bounds`. -/
structure Bounds (α : Type) where
  minx : α
  miny : α
  maxx : α
  maxy : α
deriving DecidableEq, Repr

/-- `EveryLot.scale_bounds`: scale a bounding box about its center. -/
def scale_bounds (b : Bounds ℚ) (scale_factor : ℚ) : Bounds ℚ :=
  let cx := (b.maxx + b.minx) / 2
  let cy := (b.maxy + b.miny) / 2
  let dx := b.maxx - b.minx
  let dy := b.maxy - b.miny
  ⟨cx - dx * scale_factor / 2, cy - dy * scale_factor / 2,
   cx + dx * scale_factor / 2, cy + dy * scale_factor / 2⟩

/-- The `latRad` inner helper of `calculate_zoom`, over exact reals:
`max(min(log((1 + sin) / (1 - sin)) / 2, pi), -pi) / 2` where
`sin = sin(lat * pi / 180)`. -/
noncomputable def latRad (lat : ℝ) : ℝ :=
  let s := Real.sin (lat * Real.pi / 180)
  let radX2 := Real.log ((1 + s) / (1 - s)) / 2
  max (min radX2 Real.pi) (-Real.pi) / 2

/-- The `zoom` inner helper of `calculate_zoom`:
`floor(log(mapPx / worldPx / fraction) / log(2))`. -/
noncomputable def zoomAxis (mapPx worldPx fraction : ℝ) : ℤ :=
  ⌊Real.log (mapPx / worldPx / fraction) / Real.log 2⌋

/-- `latFraction = (latRad(bounds[3]) - latRad(bounds[1])) / pi`. -/
noncomputable def latFraction (b : Bounds ℝ) : ℝ :=
  (latRad b.maxy - latRad b.miny) / Real.pi

/-- `lngFraction`: the longitude span of the box, wrapped by +360 when
negative, divided by 360. -/
noncomputable def lngFraction (b : Bounds ℝ) : ℝ :=
  (if b.maxx - b.minx < 0 then b.maxx - b.minx + 360 else b.maxx - b.minx) / 360

/-- `EveryLot.calculate_zoom` for output dimensions (mapWidth, mapHeight):
`min(latZoom, lngZoom, ZOOM_MAX)` with `ZOOM_MAX = 20` and a 256-pixel
world tile on each axis; `latZoom` uses the output height, `lngZoom` the
output width. -/
noncomputable def calculate_zoom (b : Bounds ℝ) (mapWidth mapHeight : ℝ) : ℤ :=
  min (min (zoomAxis mapHeight 256 (latFraction b)) (zoomAxis mapWidth 256 (lngFraction b)))
    20

/-- The per-axis zoom is antitone in the fraction: a larger fraction of the
world can only lower (or keep) the axis zoom. -/
theorem zoomAxis_antitone {m w f g : ℝ} (hmw : 0 < m / w) (hf : 0 < f) (hfg : f ≤ g) :
    zoomAxis m w g ≤ zoomAxis m w f := by
  apply Int.floor_mono
  have hg : 0 < g := lt_of_lt_of_le hf hfg
  have h1 : m / w / g ≤ m / w / f := by
    rw [div_le_div_iff hg hf]
    exact mul_le_mul_of_nonneg_left hfg (le_of_lt hmw)
  have h2 : 0 < m / w / g := div_pos hmw hg
  have h3 := Real.log_le_log h2 h1
  exact div_le_div_of_nonneg_right h3 (le_of_lt (Real.log_pos (by norm_num)))

/-- Whenever the world fraction is small enough that
`mapPx / worldPx / fraction` reaches 2 to the 20th, the axis zoom is at
least 20. -/
theorem twenty_le_zoomAxis {m w f : ℝ} (h : (2 : ℝ) ^ (20 : ℕ) ≤ m / w / f) :
    20 ≤ zoomAxis m w f := by
  unfold zoomAxis
  rw [Int.le_floor]
  have hlog2 : 0 < Real.log 2 := Real.log_pos (by norm_num)
  rw [le_div_iff hlog2]
  calc ((20 : ℤ) : ℝ) * Real.log 2 = Real.log ((2 : ℝ) ^ (20 : ℕ)) := by
        rw [Real.log_pow]; norm_num
    _ ≤ Real.log (m / w / f) := Real.log_le_log (by positivity) h

/-- `latRad` is monotone on the open latitude range (-90, 90) degrees. -/
theorem latRad_mono {a b : ℝ} (ha : -90 < a) (hb : b < 90) (hab : a ≤ b) :
    latRad a ≤ latRad b := by
  have hπ := Real.pi_pos
  have hθab : a * Real.pi / 180 ≤ b * Real.pi / 180 := by
    apply div_le_div_of_nonneg_right _ (by norm_num)
    exact mul_le_mul_of_nonneg_right hab (le_of_lt hπ)
  have hθa_lo : -(Real.pi / 2) < a * Real.pi / 180 := by nlinarith
  have hθb_hi : b * Real.pi / 180 < Real.pi / 2 := by nlinarith
  have hmema : a * Real.pi / 180 ∈ Set.Icc (-(Real.pi / 2)) (Real.pi / 2) :=
    ⟨le_of_lt hθa_lo, le_trans hθab (le_of_lt hθb_hi)⟩
  have hmemb : b * Real.pi / 180 ∈ Set.Icc (-(Real.pi / 2)) (Real.pi / 2) :=
    ⟨le_trans (le_of_lt hθa_lo) hθab, le_of_lt hθb_hi⟩
  have hmem_lo : -(Real.pi / 2) ∈ Set.Icc (-(Real.pi / 2)) (Real.pi / 2) :=
    ⟨le_refl _, by linarith⟩
  have hmem_hi : Real.pi / 2 ∈ Set.Icc (-(Real.pi / 2)) (Real.pi / 2) :=
    ⟨by linarith, le_refl _⟩
  have hs : Real.sin (a * Real.pi / 180) ≤ Real.sin (b * Real.pi / 180) :=
    Real.strictMonoOn_sin.monotoneOn hmema hmemb hθab
  have hsa : -1 < Real.sin (a * Real.pi / 180) := by
    have := Real.strictMonoOn_sin hmem_lo hmema hθa_lo
    rwa [Real.sin_neg, Real.sin_pi_div_two] at this
  have hsb : Real.sin (b * Real.pi / 180) < 1 := by
    have := Real.strictMonoOn_sin hmemb hmem_hi hθb_hi
    rwa [Real.sin_pi_div_two] at this
  have h1a : 0 < 1 - Real.sin (a * Real.pi / 180) := by linarith
  have h1b : 0 < 1 - Real.sin (b * Real.pi / 180) := by linarith
  have h2a : 0 < 1 + Real.sin (a * Real.pi / 180) := by linarith
  have hg : (1 + Real.sin (a * Real.pi / 180)) / (1 - Real.sin (a * Real.pi / 180)) ≤
      (1 + Real.sin (b * Real.pi / 180)) / (1 - Real.sin (b * Real.pi / 180)) := by
    rw [div_le_div_iff h1a h1b]
    nlinarith
  have hgpos : 0 < (1 + Real.sin (a * Real.pi / 180)) / (1 - Real.sin (a * Real.pi / 180)) :=
    div_pos h2a h1a
  have hlog := Real.log_le_log hgpos hg
  simp only [latRad]
  apply div_le_div_of_nonneg_right _ (by norm_num)
  exact max_le_max (min_le_min (div_le_div_of_nonneg_right hlog (by norm_num)) le_rfl) le_rfl

/-- For a small positive latitude x (at most one degree), `latRad` is
positive, odd, and the symmetric latitude fraction over [-x, x] is at most
`x / (180 - x * pi)`. -/
theorem latRad_small {x : ℝ} (h0 : 0 < x) (h1 : x ≤ 1) :
    0 < latRad x ∧ latRad (-x) = -latRad x ∧
    (latRad x - latRad (-x)) / Real.pi ≤ x / (180 - x * Real.pi) := by
  have hπ := Real.pi_pos
  have hπ3 : (3 : ℝ) < Real.pi := Real.pi_gt_three
  have hπ4 : Real.pi < 3.15 := Real.pi_lt_d2
  have hθpos : 0 < x * Real.pi / 180 := by positivity
  have hθle : x * Real.pi / 180 ≤ Real.pi / 180 := by
    apply div_le_div_of_nonneg_right _ (by norm_num)
    nlinarith
  have hθlt : x * Real.pi / 180 < 1 / 50 := by nlinarith
  have hs_pos : 0 < Real.sin (x * Real.pi / 180) :=
    Real.sin_pos_of_pos_of_lt_pi hθpos (by nlinarith)
  have hs_lt : Real.sin (x * Real.pi / 180) < x * Real.pi / 180 := Real.sin_lt hθpos
  have hs_small : Real.sin (x * Real.pi / 180) < 1 / 50 := lt_trans hs_lt hθlt
  have h1s : 0 < 1 - Real.sin (x * Real.pi / 180) := by linarith
  have h1s' : 0 < 1 + Real.sin (x * Real.pi / 180) := by linarith
  have hgt1 : 1 < (1 + Real.sin (x * Real.pi / 180)) / (1 - Real.sin (x * Real.pi / 180)) :=
    (one_lt_div h1s).2 (by linarith)
  have hlogpos : 0 < Real.log ((1 + Real.sin (x * Real.pi / 180)) /
      (1 - Real.sin (x * Real.pi / 180))) := Real.log_pos hgt1
  have hlog_le : Real.log ((1 + Real.sin (x * Real.pi / 180)) /
      (1 - Real.sin (x * Real.pi / 180))) ≤
      2 * (Real.sin (x * Real.pi / 180) / (1 - Real.sin (x * Real.pi / 180))) := by
    have h := Real.log_le_sub_one_of_pos (div_pos h1s' h1s)
    have heq : (1 + Real.sin (x * Real.pi / 180)) / (1 - Real.sin (x * Real.pi / 180)) - 1 =
        2 * (Real.sin (x * Real.pi / 180) / (1 - Real.sin (x * Real.pi / 180))) := by
      field_simp
      ring
    linarith [heq ▸ h]
  have hθ1 : 0 < 1 - x * Real.pi / 180 := by linarith
  have hsdiv : Real.sin (x * Real.pi / 180) / (1 - Real.sin (x * Real.pi / 180)) ≤
      (x * Real.pi / 180) / (1 - x * Real.pi / 180) := by
    rw [div_le_div_iff h1s hθ1]
    nlinarith
  have hr_le : Real.log ((1 + Real.sin (x * Real.pi / 180)) /
      (1 - Real.sin (x * Real.pi / 180))) / 2 ≤
      (x * Real.pi / 180) / (1 - x * Real.pi / 180) := by
    have : Real.log ((1 + Real.sin (x * Real.pi / 180)) /
        (1 - Real.sin (x * Real.pi / 180))) / 2 ≤
        Real.sin (x * Real.pi / 180) / (1 - Real.sin (x * Real.pi / 180)) := by
      linarith
    linarith
  have hbound_lt : (x * Real.pi / 180) / (1 - x * Real.pi / 180) < 1 := by
    rw [div_lt_one hθ1]
    linarith
  have hr_lt_pi : Real.log ((1 + Real.sin (x * Real.pi / 180)) /
      (1 - Real.sin (x * Real.pi / 180))) / 2 < Real.pi := by
    calc Real.log ((1 + Real.sin (x * Real.pi / 180)) /
          (1 - Real.sin (x * Real.pi / 180))) / 2 ≤
        (x * Real.pi / 180) / (1 - x * Real.pi / 180) := hr_le
      _ < 1 := hbound_lt
      _ < Real.pi := by linarith
  have hlatx : latRad x = Real.log ((1 + Real.sin (x * Real.pi / 180)) /
      (1 - Real.sin (x * Real.pi / 180))) / 2 / 2 := by
    simp only [latRad]
    rw [min_eq_left (le_of_lt hr_lt_pi), max_eq_left (by linarith)]
  have hsin_neg : Real.sin (-x * Real.pi / 180) = -Real.sin (x * Real.pi / 180) := by
    rw [show -x * Real.pi / 180 = -(x * Real.pi / 180) by ring, Real.sin_neg]
  have hinv : (1 + Real.sin (-x * Real.pi / 180)) / (1 - Real.sin (-x * Real.pi / 180)) =
      ((1 + Real.sin (x * Real.pi / 180)) / (1 - Real.sin (x * Real.pi / 180)))⁻¹ := by
    rw [hsin_neg, inv_div]
    ring_nf
  have hlatnegx : latRad (-x) = -(Real.log ((1 + Real.sin (x * Real.pi / 180)) /
      (1 - Real.sin (x * Real.pi / 180))) / 2) / 2 := by
    simp only [latRad]
    rw [hinv, Real.log_inv]
    rw [min_eq_left (by linarith), max_eq_left (by linarith)]
    ring
  refine ⟨?_, ?_, ?_⟩
  · rw [hlatx]; positivity
  · rw [hlatx, hlatnegx]; ring
  · rw [hlatx, hlatnegx]
    have hsum : Real.log ((1 + Real.sin (x * Real.pi / 180)) /
        (1 - Real.sin (x * Real.pi / 180))) / 2 / 2 -
        -(Real.log ((1 + Real.sin (x * Real.pi / 180)) /
        (1 - Real.sin (x * Real.pi / 180))) / 2) / 2 =
        Real.log ((1 + Real.sin (x * Real.pi / 180)) /
        (1 - Real.sin (x * Real.pi / 180))) / 2 := by ring
    rw [hsum]
    have heq : (x * Real.pi / 180) / (1 - x * Real.pi / 180) / Real.pi =
        x / (180 - x * Real.pi) := by
      rw [div_div, div_eq_div_iff (by positivity) (by nlinarith)]
      ring
    rw [← heq]
    exact div_le_div_of_nonneg_right hr_le (le_of_lt hπ)

/-- For a small symmetric box of half-width x degrees (both axes), both
axis zooms reach 20 and the cap makes `calculate_zoom` exactly 20. -/
theorem calculate_zoom_cap_sym {x : ℝ} (h0 : 0 < x) (h1 : x ≤ 1 / 2000) :
    calculate_zoom ⟨-x, -x, x, x⟩ 1000 1000 = 20 := by
  have hπ := Real.pi_pos
  have hπ4 : Real.pi < 3.15 := Real.pi_lt_d2
  obtain ⟨hpos, hodd, hle⟩ := latRad_small h0 (by linarith)
  have hlatf : latFraction ⟨-x, -x, x, x⟩ = (latRad x - latRad (-x)) / Real.pi := rfl
  have hlat_pos : 0 < latFraction ⟨-x, -x, x, x⟩ := by
    rw [hlatf, hodd]
    apply div_pos (by linarith) hπ
  have h180 : (179 : ℝ) < 180 - x * Real.pi := by nlinarith
  have hsmall : latFraction ⟨-x, -x, x, x⟩ ≤ 125 / 33554432 := by
    rw [hlatf]
    refine le_trans hle ?_
    rw [div_le_div_iff (by linarith) (by norm_num)]
    nlinarith
  have hlat20 : 20 ≤ zoomAxis 1000 256 (latFraction ⟨-x, -x, x, x⟩) := by
    apply twenty_le_zoomAxis
    rw [le_div_iff hlat_pos]
    nlinarith [hsmall]
  have hlngf : lngFraction ⟨-x, -x, x, x⟩ =
      (if x - -x < 0 then x - -x + 360 else x - -x) / 360 := rfl
  have hlng_eq : lngFraction ⟨-x, -x, x, x⟩ = (2 * x) / 360 := by
    rw [hlngf, if_neg (by linarith)]
    ring_nf
  have hlng_pos : 0 < lngFraction ⟨-x, -x, x, x⟩ := by
    rw [hlng_eq]; positivity
  have hlng20 : 20 ≤ zoomAxis 1000 256 (lngFraction ⟨-x, -x, x, x⟩) := by
    apply twenty_le_zoomAxis
    rw [le_div_iff hlng_pos, hlng_eq]
    nlinarith
  unfold calculate_zoom
  rw [min_eq_right (le_min hlat20 hlng20)]

/-- One piece of a Python format string: a literal run or a replacement
field naming a row column. -/
inductive FmtPart where
  | lit (s : String)
  | field (name : String)
deriving DecidableEq, Repr

/-- Python `fmt.format(**lot)`: every referenced column must be present in
the row mapping, otherwise `KeyError`; present values are rendered in
place. -/
def pyFormat : List FmtPart → Lot → Except PyError String
  | [], _ => .ok ""
  | .lit s :: rest, lot => (pyFormat rest lot).map (s ++ ·)
  | .field n :: rest, lot =>
      match lot.lookup n with
      | none => .error .keyError
      | some v => (pyFormat rest lot).map (render v ++ ·)

/-- The default search format, `'\x7baddress\x7d, \x7bcity\x7d \x7bstate\x7d'`. -/
def defaultSearchFormat : List FmtPart :=
  [.field "address", .lit ", ", .field "city", .lit " ", .field "state"]

/-- The outcome of the geocoding HTTP call in `streetviewable_location`, as
the surrounding code observes it: `requests.get` may raise, or it returns a
status code together with the parsed `results[0].geometry.location` as a
(lat, lng) pair — `none` when the JSON indexing itself raises. -/
inductive GeoOutcome where
  | requestError
  | response (status : Int) (loc : Option (ℚ × ℚ))
deriving DecidableEq, Repr

/-- The coordinate fallback string
`'\x7b\x7d,\x7b\x7d'.format(self.lot['lat'], self.lot['lon'])`: raises
`KeyError` when either coordinate column is absent. -/
def latLonString (lot : Lot) : Except PyError String :=
  match lot.lookup "lat", lot.lookup "lon" with
  | some la, some lo => .ok (render la ++ "," ++ render lo)
  | _, _ => .error .keyError

/-- `EveryLot.streetviewable_location`. The returned Bool records whether
the geocoding request was issued at all. Control flow follows the source:
a `KeyError` from formatting falls back to the coordinate string (which can
itself raise `KeyError`); then `minpt`/`maxpt` are built, where a missing
`lat` or `lon` raises `KeyError` (caught: return the address naively) and a
non-numeric one raises `TypeError` from the subtraction (not caught); then
the geocode call runs under `except Exception`, every failure — request
error, bad status, JSON indexing error, out-of-box location — yielding the
coordinate string, and an in-box location yielding the address. -/
def streetviewable_location (fmt : List FmtPart) (lot : Lot) (geo : GeoOutcome) :
    Except PyError String × Bool :=
  match pyFormat fmt lot with
  | .error _ => (latLonString lot, false)
  | .ok address =>
      match lot.lookup "lat" with
      | none => (.ok address, false)
      | some vla =>
          match vla with
          | .num la =>
              match lot.lookup "lon" with
              | none => (.ok address, false)
              | some vlo =>
                  match vlo with
                  | .num lo =>
                      let d : ℚ := 7 / 1000
                      match geo with
                      | .requestError => (.ok (render vla ++ "," ++ render vlo), true)
                      | .response status loc =>
                          if status ≠ 200 then
                            (.ok (render vla ++ "," ++ render vlo), true)
                          else
                            match loc with
                            | none => (.ok (render vla ++ "," ++ render vlo), true)
                            | some gl =>
                                if gl.2 < lo - d ∨ gl.2 > lo + d ∨
                                    gl.1 > la + d ∨ gl.1 < la - d then
                                  (.ok (render vla ++ "," ++ render vlo), true)
                                else
                                  (.ok address, true)
                  | _ => (.error .typeError, false)
          | _ => (.error .typeError, false)

/-- Parsing a numeric `floors` column yields the column value, with a
falsy 0 replaced by 2. -/
theorem aim_camera_num (f : ℚ) :
    aim_camera (some (.num f)) =
      .ok (aim_camera_floors (.finite (if f = 0 then 2 else f))) := by
  simp [aim_camera, floorsValue, pyFloat, Except.map]

/-- Below three floors (after defaulting) the camera cascade leaves the
initial pair untouched. -/
theorem aim_camera_floors_lt3 {f : ℚ} (h : f < 3) :
    aim_camera_floors (.finite f) = (65, 10) := by
  simp only [aim_camera_floors, pfEq, pfGe, decide_eq_true_eq]
  split_ifs <;> first | rfl | linarith

/-- From five floors up to (but excluding) six, and again at exactly
seven, the `floors >= 5` rule is the last one to fire. -/
theorem aim_camera_floors_ge5_lt6 {f : ℚ} (h5 : 5 ≤ f) (h6 : f < 6) :
    aim_camera_floors (.finite f) = (81, 20) := by
  simp only [aim_camera_floors, pfEq, pfGe, decide_eq_true_eq]
  split_ifs <;> first | rfl | linarith

/-- From eight floors up to (but excluding) ten, the `floors >= 8` rule is
the last one to fire. -/
theorem aim_camera_floors_ge8_lt10 {f : ℚ} (h8 : 8 ≤ f) (h10 : f < 10) :
    aim_camera_floors (.finite f) = (90, 25) := by
  simp only [aim_camera_floors, pfEq, pfGe, decide_eq_true_eq]
  split_ifs <;> first | rfl | linarith

/-- From ten floors up, the `floors >= 10` rule is the last one to fire. -/
theorem aim_camera_floors_ge10 {f : ℚ} (h : 10 ≤ f) :
    aim_camera_floors (.finite f) = (90, 30) := by
  simp only [aim_camera_floors, pfEq, pfGe, decide_eq_true_eq]
  split_ifs <;> first | rfl | linarith

end EveryLot

namespace EveryLotClaims
open EveryLot

/-- C1: for every floor-count value f (and for absent f), `aim_camera`
returns exactly the (fov, pitch) pair of the spec's table: (65,10) for
f < 3, (72,10) for f = 3, (76,15) for f = 4, (81,20) for 5 ≤ f < 6 and for
f = 7, (86,20) for f = 6, (90,25) for 8 ≤ f < 10, and (90,30) for f ≥ 10,
with the sequential override order preserved at the boundaries. -/
theorem C1_aim_camera_matches_table :
    (∀ f : ℚ, f < 3 → aim_camera (some (.num f)) = .ok (65, 10)) ∧
    aim_camera (some (.num 3)) = .ok (72, 10) ∧
    aim_camera (some (.num 4)) = .ok (76, 15) ∧
    (∀ f : ℚ, 5 ≤ f → f < 6 → aim_camera (some (.num f)) = .ok (81, 20)) ∧
    aim_camera (some (.num 7)) = .ok (81, 20) ∧
    aim_camera (some (.num 6)) = .ok (86, 20) ∧
    (∀ f : ℚ, 8 ≤ f → f < 10 → aim_camera (some (.num f)) = .ok (90, 25)) ∧
    (∀ f : ℚ, 10 ≤ f → aim_camera (some (.num f)) = .ok (90, 30)) ∧
    aim_camera none = .ok (65, 10) := by
  refine ⟨?_, ?_, ?_, ?_, ?_, ?_, ?_, ?_, ?_⟩
  · intro f h
    rw [aim_camera_num]
    split_ifs with h0
    · rw [aim_camera_floors_lt3 (by norm_num)]
    · rw [aim_camera_floors_lt3 h]
  · rw [aim_camera_num, if_neg (by norm_num)]
    simp only [aim_camera_floors, pfEq, pfGe, decide_eq_true_eq]
    norm_num
  · rw [aim_camera_num, if_neg (by norm_num)]
    simp only [aim_camera_floors, pfEq, pfGe, decide_eq_true_eq]
    norm_num
  · intro f h5 h6
    rw [aim_camera_num, if_neg (by linarith)]
    exact congrArg _ (aim_camera_floors_ge5_lt6 h5 h6)
  · rw [aim_camera_num, if_neg (by norm_num)]
    simp only [aim_camera_floors, pfEq, pfGe, decide_eq_true_eq]
    norm_num
  · rw [aim_camera_num, if_neg (by norm_num)]
    simp only [aim_camera_floors, pfEq, pfGe, decide_eq_true_eq]
    norm_num
  · intro f h8 h10
    rw [aim_camera_num, if_neg (by linarith)]
    exact congrArg _ (aim_camera_floors_ge8_lt10 h8 h10)
  · intro f h
    rw [aim_camera_num, if_neg (by linarith)]
    exact congrArg _ (aim_camera_floors_ge10 h)
  · show (floorsValue none).map aim_camera_floors = .ok (65, 10)
    rw [show floorsValue none = .ok (.finite 2) from rfl]
    exact congrArg _ (aim_camera_floors_lt3 (by norm_num))

/-- C1 witness: the table theorem applied at the concrete floor counts
5.5, 0, 9 and 11. -/
theorem C1_aim_camera_matches_table_witness :
    aim_camera (some (.num (11/2))) = .ok (81, 20) ∧
    aim_camera (some (.num 0)) = .ok (65, 10) ∧
    aim_camera (some (.num 9)) = .ok (90, 25) ∧
    aim_camera (some (.num 11)) = .ok (90, 30) :=
  ⟨C1_aim_camera_matches_table.2.2.2.1 (11/2) (by norm_num) (by norm_num),
   C1_aim_camera_matches_table.1 0 (by norm_num),
   C1_aim_camera_matches_table.2.2.2.2.2.2.1 9 (by norm_num) (by norm_num),
   C1_aim_camera_matches_table.2.2.2.2.2.2.2.1 11 (by norm_num)⟩

/-- C3 counterexample: on an empty table (no row matches any selection)
the load fails with `TypeError` — `dict(zip(keys, None))` — and that is a
different error from the dedicated `NotFoundError` the claim requires. -/
theorem C3_counterexample :
    loadLot [] none = .error .typeError ∧
    PyError.typeError ≠ PyError.notFoundError := by
  exact ⟨rfl, by simp⟩

/-- C3 amended: when no row matches the selection, record loading fails
with `TypeError` (from iterating the absent row), not with a dedicated
not-found error; in fact `loadLot` can never produce `notFoundError`. -/
theorem C3_amended_load_fails_with_type_error :
    (∀ (rows : List LotRow) (id_ : Option Int),
        firstMatch rows id_ = none → loadLot rows id_ = .error .typeError) ∧
    (∀ (rows : List LotRow) (id_ : Option Int),
        loadLot rows id_ ≠ .error .notFoundError) := by
  constructor
  · intro rows id_ h
    simp [loadLot, h]
  · intro rows id_
    unfold loadLot
    cases firstMatch rows id_ <;> simp

/-- C3 witness: the amended theorem applied to the empty table. -/
theorem C3_amended_load_fails_with_type_error_witness :
    loadLot [] none = .error .typeError :=
  C3_amended_load_fails_with_type_error.1 [] none rfl

/-- C8: `scale_bounds` keeps the center of the box and multiplies both
dimensions by the scale factor; in particular scaling (0,0,2,2) by 3
yields (-2,-2,4,4). -/
theorem C8_scale_bounds_center_and_size :
    (∀ (b : Bounds ℚ) (s : ℚ),
        ((scale_bounds b s).minx + (scale_bounds b s).maxx) / 2 = (b.minx + b.maxx) / 2 ∧
        ((scale_bounds b s).miny + (scale_bounds b s).maxy) / 2 = (b.miny + b.maxy) / 2 ∧
        (scale_bounds b s).maxx - (scale_bounds b s).minx = s * (b.maxx - b.minx) ∧
        (scale_bounds b s).maxy - (scale_bounds b s).miny = s * (b.maxy - b.miny)) ∧
    scale_bounds ⟨0, 0, 2, 2⟩ 3 = ⟨-2, -2, 4, 4⟩ := by
  constructor
  · intro b s
    refine ⟨?_, ?_, ?_, ?_⟩ <;> (simp only [scale_bounds]; ring)
  · simp only [scale_bounds]
    norm_num

/-- C9 counterexample: a `floors` column holding a non-numeric string makes
`aim_camera` raise `ValueError` — `float('no data')` is caught by no
handler (`except TypeError` does not match it) — instead of defaulting
to 2 and returning (65, 10). -/
theorem C9_counterexample :
    aim_camera (some (.text "no data")) = .error .valueError := by
  norm_num [aim_camera, Except.map, floorsValue, pyFloat, parsePyFloat,
    show parsePyFloatRep "no data" = none from by decide]

/-- C9 amended: an absent `floors` column, or a NULL one (Python `None`,
whose `float()` raises the `TypeError` the handler does catch), is treated
as 2 floors and gives (65, 10) without raising; but a string `float()`
cannot parse raises `ValueError`, which the `except TypeError` clause does
not catch. The quantifier ranges over ASCII strings, where the parser
model is exact; strings `float()` does accept — exponents, surrounding
whitespace, infinities, NaN, digit underscores — parse and flow through
the cascade, as the closing conjuncts show. -/
theorem C9_amended_floors_default :
    aim_camera none = .ok (65, 10) ∧
    aim_camera (some .null) = .ok (65, 10) ∧
    (∀ s : String, (s.toList.all fun c => c.toNat ≤ 127) →
      parsePyFloat s = none → aim_camera (some (.text s)) = .error .valueError) ∧
    aim_camera (some (.text "1e5")) = .ok (90, 30) ∧
    aim_camera (some (.text " 2")) = .ok (65, 10) ∧
    aim_camera (some (.text "inf")) = .ok (90, 30) ∧
    aim_camera (some (.text "nan")) = .ok (65, 10) ∧
    aim_camera (some (.text "1_0")) = .ok (90, 30) := by
  refine ⟨?_, ?_, ?_, ?_, ?_, ?_, ?_, ?_⟩
  · show (floorsValue none).map aim_camera_floors = .ok (65, 10)
    rw [show floorsValue none = .ok (.finite 2) from rfl]
    exact congrArg _ (aim_camera_floors_lt3 (by norm_num))
  · norm_num [aim_camera, Except.map, floorsValue, pyFloat]
    exact aim_camera_floors_lt3 (by norm_num)
  · intro s _ h
    simp [aim_camera, Except.map, floorsValue, pyFloat, h]
  · norm_num [aim_camera, Except.map, floorsValue, pyFloat, parsePyFloat,
      show parsePyFloatRep "1e5" = some (.finite false 1 0 0 5) from by decide,
      repVal, aim_camera_floors, pfEq, pfGe, decide_eq_true_eq]
  · norm_num [aim_camera, Except.map, floorsValue, pyFloat, parsePyFloat,
      show parsePyFloatRep " 2" = some (.finite false 2 0 0 0) from by decide,
      repVal, aim_camera_floors, pfEq, pfGe, decide_eq_true_eq]
  · norm_num [aim_camera, Except.map, floorsValue, pyFloat, parsePyFloat,
      show parsePyFloatRep "inf" = some (.inf false) from by decide,
      repVal, aim_camera_floors, pfEq, pfGe]
  · norm_num [aim_camera, Except.map, floorsValue, pyFloat, parsePyFloat,
      show parsePyFloatRep "nan" = some .nan from by decide,
      repVal, aim_camera_floors, pfEq, pfGe]
  · norm_num [aim_camera, Except.map, floorsValue, pyFloat, parsePyFloat,
      show parsePyFloatRep "1_0" = some (.finite false 10 0 0 0) from by decide,
      repVal, aim_camera_floors, pfEq, pfGe, decide_eq_true_eq]

/-- C9 witness: the amended theorem applied to the unparseable ASCII
string "abc". -/
theorem C9_amended_floors_default_witness :
    aim_camera (some (.text "abc")) = .error .valueError :=
  C9_amended_floors_default.2.2.1 "abc" (by decide)
    (by simp [parsePyFloat, show parsePyFloatRep "abc" = none from by decide])

/-- A concrete parcel for C2: a square outer ring with one triangular
hole, in the (lng, lat) coordinate order of the stored geometry. -/
def holedParcel : Polygon :=
  ⟨[(0, 0), (10, 0), (10, 10), (0, 10), (0, 0)],
   [[(5, 6), (7, 6), (7, 8), (5, 6)]]⟩

/-- C2 counterexample: for a single polygon with a hole, the overlay path
list contains the hole ring as a path of its own — `parcel["coordinates"]`
for a Polygon is all rings, not just the exterior — so interior-ring
coordinates do appear in the path list. -/
theorem C2_counterexample :
    holedParcel.holes = [[(5, 6), (7, 6), (7, 8), (5, 6)]] ∧
    overlayPaths (.poly holedParcel) =
      .ok [[(0, 0), (0, 10), (10, 10), (10, 0), (0, 0)],
           [(6, 5), (6, 7), (8, 7), (6, 5)]] ∧
    toPath [(5, 6), (7, 6), (7, 8), (5, 6)] = [(6, 5), (6, 7), (8, 7), (6, 5)] :=
  ⟨rfl, rfl, rfl⟩

/-- C2 amended: for a multi-polygon, every coordinate of every overlay path
comes from the outer ring of one of the sub-polygons (hole coordinates
never appear); for a single polygon, however, the path list is every ring
of the polygon — exterior and holes alike. -/
theorem C2_amended_overlay_paths :
    (∀ (ps : List Polygon) (paths : List (List (ℚ × ℚ)))
        (path : List (ℚ × ℚ)) (pt : ℚ × ℚ),
        overlayPaths (.multi ps) = .ok paths → path ∈ paths → pt ∈ path →
        ∃ p, p ∈ ps ∧ (pt.2, pt.1) ∈ p.outer) ∧
    (∀ p : Polygon, overlayPaths (.poly p) = .ok ((p.outer :: p.holes).map toPath)) := by
  constructor
  · intro ps paths path pt hok hpath hpt
    have hpaths : paths = ps.map (fun p => toPath p.outer) := by
      have : overlayPaths (.multi ps) = .ok (ps.map (fun p => toPath p.outer)) := by
        simp [overlayPaths, overlayRings, Except.map, List.map_map, Function.comp]
      rw [this] at hok
      exact (Except.ok.injEq _ _ ▸ congrArg id hok).symm ▸ by
        cases hok with
        | refl => rfl
    subst hpaths
    rcases List.mem_map.1 hpath with ⟨p, hp, rfl⟩
    rcases List.mem_map.1 hpt with ⟨c, hc, rfl⟩
    exact ⟨p, hp, by simpa using hc⟩
  · intro p
    rfl

/-- C2 witness: the amended theorem applied to a one-polygon
multi-polygon whose outer ring is the single point (1, 2). -/
theorem C2_amended_overlay_paths_witness :
    ∃ p, p ∈ [(⟨[(1, 2)], []⟩ : Polygon)] ∧ ((1 : ℚ), (2 : ℚ)) ∈ p.outer :=
  C2_amended_overlay_paths.1 [⟨[(1, 2)], []⟩] [[(2, 1)]] [(2, 1)] (2, 1)
    rfl (List.mem_singleton.2 rfl) (List.mem_singleton.2 rfl)

/-- C5 counterexample: a record missing the referenced field "address" AND
missing lat/lon makes `streetviewable_location` raise `KeyError` from the
fallback `'\x7b\x7d,\x7b\x7d'.format(self.lot['lat'], self.lot['lon'])`
itself, instead of returning the coordinate string without raising. -/
theorem C5_counterexample :
    streetviewable_location [.field "address"] [] .requestError =
      (.error .keyError, false) :=
  rfl

/-- C5 amended: for a record missing a field referenced by the search
format, `streetviewable_location` falls back immediately — no geocoding
request — to the "lat,lon" string, PROVIDED the record's lat and lon
columns are present; when one of them is also missing, the fallback itself
raises `KeyError`. -/
theorem C5_amended_missing_field_fallback :
    ∀ (fmt : List FmtPart) (lot : Lot) (geo : GeoOutcome) (vla vlo : Val),
      pyFormat fmt lot = .error .keyError →
      lot.lookup "lat" = some vla →
      lot.lookup "lon" = some vlo →
      streetviewable_location fmt lot geo =
        (.ok (render vla ++ "," ++ render vlo), false) := by
  intro fmt lot geo vla vlo hfmt hla hlo
  simp [streetviewable_location, hfmt, latLonString, hla, hlo]

/-- C5 witness: the amended theorem on a record with coordinates but no
address field, under the default search format. -/
theorem C5_amended_missing_field_fallback_witness :
    streetviewable_location defaultSearchFormat
      [("lat", .num 40), ("lon", .num (-73))] .requestError =
      (.ok (render (.num 40) ++ "," ++ render (.num (-73))), false) :=
  C5_amended_missing_field_fallback defaultSearchFormat
    [("lat", .num 40), ("lon", .num (-73))] .requestError
    (.num 40) (.num (-73)) rfl rfl rfl

/-- C6: for a record whose address formats successfully but which lacks
lat/lon (lat absent, or lat numeric and lon absent), the formatted address
is returned as-is and the geocoding request is never issued. -/
theorem C6_no_geocode_without_coords :
    ∀ (fmt : List FmtPart) (lot : Lot) (geo : GeoOutcome) (address : String),
      pyFormat fmt lot = .ok address →
      (lot.lookup "lat" = none ∨
        ∃ q : ℚ, lot.lookup "lat" = some (.num q) ∧ lot.lookup "lon" = none) →
      streetviewable_location fmt lot geo = (.ok address, false) := by
  intro fmt lot geo address hfmt h
  rcases h with hla | ⟨q, hla, hlo⟩
  · simp [streetviewable_location, hfmt, hla]
  · simp [streetviewable_location, hfmt, hla, hlo]

/-- C6 witness: a record with an address column but no coordinates, under
a format referencing only the address. -/
theorem C6_no_geocode_without_coords_witness :
    streetviewable_location [.field "address"] [("address", .text "1 Main St")]
      .requestError = (.ok "1 Main St", false) :=
  C6_no_geocode_without_coords [.field "address"] [("address", .text "1 Main St")]
    .requestError "1 Main St" rfl (Or.inl rfl)

/-- C4: with a formattable address and numeric lat/lon present, every
geocode-confirmation failure — request error, non-200 status, or a
returned location strictly outside the ±0.007-degree box — makes
`streetviewable_location` return the "lat,lon" coordinate string without
raising. -/
theorem C4_geocode_failure_falls_back :
    ∀ (fmt : List FmtPart) (lot : Lot) (geo : GeoOutcome) (address : String) (la lo : ℚ),
      pyFormat fmt lot = .ok address →
      lot.lookup "lat" = some (.num la) →
      lot.lookup "lon" = some (.num lo) →
      (geo = .requestError ∨
        (∃ st loc, geo = .response st loc ∧ st ≠ 200) ∨
        (∃ gla glng, geo = .response 200 (some (gla, glng)) ∧
          (glng < lo - 7/1000 ∨ glng > lo + 7/1000 ∨
            gla > la + 7/1000 ∨ gla < la - 7/1000))) →
      (streetviewable_location fmt lot geo).1 =
        .ok (render (.num la) ++ "," ++ render (.num lo)) := by
  intro fmt lot geo address la lo hfmt hla hlo h
  rcases h with rfl | ⟨st, loc, rfl, hst⟩ | ⟨gla, glng, rfl, hout⟩
  · simp [streetviewable_location, hfmt, hla, hlo]
  · simp [streetviewable_location, hfmt, hla, hlo, hst]
  · simp only [streetviewable_location, hfmt, hla, hlo]
    rw [if_neg (by norm_num)]
    rw [if_pos hout]

/-- C4 witness: a geocode request error on a record with address and
coordinates. -/
theorem C4_geocode_failure_falls_back_witness :
    (streetviewable_location [.field "address"]
      [("address", .text "1 Main St"), ("lat", .num 40), ("lon", .num (-73))]
      .requestError).1 =
      .ok (render (.num 40) ++ "," ++ render (.num (-73))) :=
  C4_geocode_failure_falls_back [.field "address"]
    [("address", .text "1 Main St"), ("lat", .num 40), ("lon", .num (-73))]
    .requestError "1 Main St" 40 (-73) rfl rfl rfl (Or.inl rfl)

/-- C10: the confirmation box is boundary-inclusive — a geocode result
anywhere in the CLOSED ±0.007-degree box around (lat, lon), including
exactly on an edge, makes `streetviewable_location` return the formatted
address rather than the coordinate fallback (the code tests only strict
inequalities to cry foul). -/
theorem C10_confirmation_box_boundary_inclusive :
    ∀ (fmt : List FmtPart) (lot : Lot) (address : String) (la lo gla glng : ℚ),
      pyFormat fmt lot = .ok address →
      lot.lookup "lat" = some (.num la) →
      lot.lookup "lon" = some (.num lo) →
      la - 7/1000 ≤ gla → gla ≤ la + 7/1000 →
      lo - 7/1000 ≤ glng → glng ≤ lo + 7/1000 →
      streetviewable_location fmt lot (.response 200 (some (gla, glng))) =
        (.ok address, true) := by
  intro fmt lot address la lo gla glng hfmt hla hlo h1 h2 h3 h4
  simp only [streetviewable_location, hfmt, hla, hlo]
  rw [if_neg (by norm_num), if_neg (by push_neg; exact ⟨h3, h4, h2, h1⟩)]

/-- C10 witness: a geocode result exactly on the northern edge of the box
(lat equal to the record's lat plus 0.007). -/
theorem C10_confirmation_box_boundary_inclusive_witness :
    streetviewable_location [.field "address"]
      [("address", .text "1 Main St"), ("lat", .num 40), ("lon", .num (-73))]
      (.response 200 (some (40 + 7/1000, -73))) = (.ok "1 Main St", true) :=
  C10_confirmation_box_boundary_inclusive [.field "address"]
    [("address", .text "1 Main St"), ("lat", .num 40), ("lon", .num (-73))]
    "1 Main St" 40 (-73) (40 + 7/1000) (-73) rfl rfl rfl
    (by norm_num) (by norm_num) (by norm_num) (by norm_num)

/-- C7 counterexample: strict monotonicity fails. The box of half-width
two millionths of a degree strictly contains the box of half-width one
millionth of a degree in both dimensions, yet both get zoom exactly 20
(the cap), so the larger box's zoom is NOT strictly smaller. -/
theorem C7_counterexample :
    calculate_zoom ⟨-(1 / 1000000), -(1 / 1000000), 1 / 1000000, 1 / 1000000⟩ 1000 1000 = 20 ∧
    calculate_zoom ⟨-(2 / 1000000), -(2 / 1000000), 2 / 1000000, 2 / 1000000⟩ 1000 1000 = 20 ∧
    (-(2 / 1000000) : ℝ) < -(1 / 1000000) ∧ ((1 / 1000000) : ℝ) < 2 / 1000000 :=
  ⟨calculate_zoom_cap_sym (by norm_num) (by norm_num),
   calculate_zoom_cap_sym (by norm_num) (by norm_num),
   by norm_num, by norm_num⟩

/-- C7 (amended): the zoom of the box (-1,-1,1,1) at 1000 by 1000 output is
at most 20; and zoom is monotonically NON-INCREASING as the box grows: for
nested genuine boxes (latitudes in the open (-90, 90) range, positive
longitude span, positive latitude fraction) the enclosing box's zoom is at
most — but, because of the floor and the cap at 20, not necessarily
strictly below — the inner box's zoom. -/
theorem C7_amended_zoom_cap_and_monotone :
    calculate_zoom ⟨-1, -1, 1, 1⟩ 1000 1000 ≤ 20 ∧
    ∀ A B : Bounds ℝ,
      B.minx ≤ A.minx → B.miny ≤ A.miny → A.maxx ≤ B.maxx → A.maxy ≤ B.maxy →
      A.miny ≤ A.maxy → -90 < B.miny → B.maxy < 90 →
      0 < A.maxx - A.minx → 0 < latFraction A →
      calculate_zoom B 1000 1000 ≤ calculate_zoom A 1000 1000 := by
  constructor
  · exact min_le_right _ _
  · intro A B h1 h2 h3 h4 h5 h6 h7 h8 h9
    have hπ := Real.pi_pos
    have hAmaxy : A.maxy < 90 := lt_of_le_of_lt h4 h7
    have hAminy : -90 < A.miny := lt_of_lt_of_le h6 h2
    have m1 : latRad A.maxy ≤ latRad B.maxy := latRad_mono (by linarith) h7 h4
    have m2 : latRad B.miny ≤ latRad A.miny := latRad_mono h6 (by linarith) h2
    have hlatmono : latFraction A ≤ latFraction B := by
      unfold latFraction
      apply div_le_div_of_nonneg_right _ (le_of_lt hπ)
      linarith
    have hlngA : lngFraction A = (A.maxx - A.minx) / 360 := by
      unfold lngFraction; rw [if_neg (by linarith)]
    have hlngB : lngFraction B = (B.maxx - B.minx) / 360 := by
      unfold lngFraction; rw [if_neg (by linarith)]
    have hlngposA : 0 < lngFraction A := by
      rw [hlngA]; positivity
    have hlngmono : lngFraction A ≤ lngFraction B := by
      rw [hlngA, hlngB]
      apply div_le_div_of_nonneg_right (by linarith) (by norm_num)
    unfold calculate_zoom
    exact min_le_min (min_le_min
      (zoomAxis_antitone (by norm_num) h9 hlatmono)
      (zoomAxis_antitone (by norm_num) hlngposA hlngmono)) le_rfl

/-- C7 witness: the monotone half of the amended claim applied to the
nested boxes (-1,-1,1,1) inside (-2,-2,2,2). -/
theorem C7_amended_zoom_cap_and_monotone_witness :
    calculate_zoom ⟨-2, -2, 2, 2⟩ 1000 1000 ≤ calculate_zoom ⟨-1, -1, 1, 1⟩ 1000 1000 :=
  C7_amended_zoom_cap_and_monotone.2 ⟨-1, -1, 1, 1⟩ ⟨-2, -2, 2, 2⟩
    (by norm_num) (by norm_num) (by norm_num) (by norm_num) (by norm_num)
    (by norm_num) (by norm_num) (by norm_num)
    (by
      have h := latRad_small (x := 1) (by norm_num) (by norm_num)
      have hf : latFraction ⟨-1, -1, 1, 1⟩ = (latRad 1 - latRad (-1)) / Real.pi := rfl
      rw [hf, h.2.1]
      exact div_pos (by linarith [h.1]) Real.pi_pos)

end EveryLotClaims
